import Mathlib

/-!
Shallow embedding of the submission-and-polling lifecycle implemented in
src/commands/submit.rs. Pure data and functions mirror the source. The
HTTP transport and the HTML query layer are external collaborators, so a
fetched submission page is modelled as exactly the data the source reads
out of it: the text of the first td.status element (none when absent)
and the sequence of elements matched by .testcases > span, each element
carrying its class list and its optional title attribute. One iteration
of the polling loop becomes pollTick, which also records the observable
actions (login, fetch, printed progress, sleep) of that iteration in
order; runPoll drives the loop over a finite trace of tick inputs.
-/

namespace KittySubmit

/-- Credentials held by the caller and cloned for every login. -/
structure Credentials where
  username : String
  token : String
deriving DecidableEq

/-- One element matched by the selector .testcases > span: its class
list and its optional title (tooltip) attribute. -/
structure TestEl where
  classes : List String
  title : Option String
deriving DecidableEq

/-- Per-test verdict, mirroring enum TestCase of the source. -/
inductive TestCase where
  | Accepted
  | Rejected (reason : String)
  | Unfinished
deriving DecidableEq

/-- ASCII lower-casing of a string, modelling the source's lower-casing
of the status text and the ASCII case-insensitive comparisons; the texts
involved are ASCII. -/
def toLowerStr (s : String) : String := String.mk (s.toList.map Char.toLower)

/-- Trim of leading and trailing whitespace, modelling str::trim. -/
def trimStr (s : String) : String :=
  String.mk (((s.toList.dropWhile Char.isWhitespace).reverse.dropWhile Char.isWhitespace).reverse)

/-- Case-insensitive string equality, modelling the comparison mode
CaseSensitivity::AsciiCaseInsensitive. -/
def eqIgnoreAsciiCase (a b : String) : Bool := toLowerStr a == toLowerStr b

/-- Does the element carry the given class, compared case-insensitively?
Models test_el.has_class(name, AsciiCaseInsensitive). -/
def hasClass (el : TestEl) (c : String) : Bool :=
  el.classes.any (fun x => eqIgnoreAsciiCase x c)

/-- Substring occurrence on char lists; models str::contains. -/
def subSearch : List Char → List Char → Bool
  | [], needle => needle.isEmpty
  | c :: t, needle => needle.isPrefixOf (c :: t) || subSearch t needle

/-- Substring test on strings. -/
def containsSub (hay needle : String) : Bool := subSearch hay.toList needle.toList

/-- Word character, the ASCII fragment of the regex class \w. -/
def isWordChar (c : Char) : Bool := c.isAlphanum || c == '_'

/-- A word character or a space, the regex class [\w ]. -/
def isWordOrSpace (c : Char) : Bool := isWordChar c || c == ' '

/-- The suffix of s matched by the regex ([\w ]+)$, empty when that
regex does not match: the maximal trailing run of word characters and
spaces. -/
def trailingRun (s : String) : String :=
  String.mk ((s.toList.reverse.takeWhile isWordOrSpace).reverse)

/-- Failure reason of one rejected element, modelling lines 183-187 of
the source: read the title attribute, capture ([\w ]+)$, trim and
lower-case the capture, defaulting to unknown when the attribute is
absent or the regex does not match. -/
def extractReason (title : Option String) : String :=
  match title with
  | none => ("unknown")
  | some t =>
    let run := trailingRun t
    if run.toList.isEmpty then ("unknown") else toLowerStr (trimStr run)

/-- Modelled from the spec: the trailing contiguous run of word
characters and spaces of a string, read left to right and restarting
after every character outside the class. Written independently of
trailingRun so that the source extractor can be compared against the
spec's description. -/
def specTrailingRun (cs : List Char) : List Char :=
  cs.foldl (fun acc c => if isWordOrSpace c then acc ++ [c] else []) []

/-- Modelled from the spec: the reason is the trailing run of word
characters and spaces of the tooltip, trimmed and lower-cased, and
unknown when the attribute is absent or the pattern does not match. -/
def specReason (title : Option String) : String :=
  match title with
  | none => ("unknown")
  | some t =>
    let run := String.mk (specTrailingRun t.toList)
    if run.toList.isEmpty then ("unknown") else toLowerStr (trimStr run)

/-- State of one pass over the test elements (lines 170-201): the
classified tests in order, the two counters of that pass, and the
persistent first-failure register. -/
structure ScanState where
  tests : List TestCase
  numPassed : Nat
  numFailed : Nat
  fail : Option TestCase
deriving DecidableEq

/-- One iteration of the for-loop over test elements (lines 174-201):
classify the element, bump the matching counter, and record the first
rejected test in the register when that register is still empty. -/
def stepTest (st : ScanState) (el : TestEl) : ScanState :=
  if hasClass el ("accepted") then
    { st with tests := st.tests ++ [TestCase.Accepted], numPassed := st.numPassed + 1 }
  else if hasClass el ("rejected") then
    let rej := TestCase.Rejected (extractReason el.title)
    { st with
        tests := st.tests ++ [rej],
        numFailed := st.numFailed + 1,
        fail := match st.fail with
          | none => some rej
          | some f => some f }
  else
    { st with tests := st.tests ++ [TestCase.Unfinished] }

/-- The whole pass over the test elements of one fetched document,
starting from the register carried over from earlier polls and freshly
zeroed counters. -/
def scanTests (fail : Option TestCase) (els : List TestEl) : ScanState :=
  els.foldl stepTest (ScanState.mk [] 0 0 fail)

/-- The first element of the sequence that the source classifies as
rejected, together with its parsed reason. -/
def firstRejected (els : List TestEl) : Option TestCase :=
  (els.find? (fun el => !hasClass el ("accepted") && hasClass el ("rejected"))).map
    (fun el => TestCase.Rejected (extractReason el.title))

/-- HTTP success check, modelling StatusCode::is_success (2xx). -/
def isSuccessCode (code : Nat) : Bool := 200 ≤ code && code < 300

/-- Match of the pattern at the head of cs: when cs starts with the
literal followed by at least one digit, the captured digit run. -/
def idAt (cs : List Char) : Option (List Char) :=
  if (("ID: ").toList).isPrefixOf cs then
    let run := (cs.drop 4).takeWhile Char.isDigit
    if run.isEmpty then none else some run
  else none

/-- Leftmost match, scanning start positions left to right; models the
first captures of the regex with pattern literal ID colon space then a
digit run. -/
def findId : List Char → Option String
  | [] => none
  | c :: rest =>
    match idAt (c :: rest) with
    | some run => some (String.mk run)
    | none => findId rest

/-- Submission id extraction from the response body (lines 109-112). -/
def extractId (content : String) : Option String := findId content.toList

/-- Outcome of submit_problem, given the transport's response. -/
inductive SubmitOutcome where
  | httpError (code : Nat)
  | problemNotFound (name : String)
  | ok (id : Option String)
deriving DecidableEq

/-- Model of submit_problem once the transport returned a response with
the given status code and body text (lines 95-114). -/
def submit_problem (problemName : String) (code : Nat) (content : String) : SubmitOutcome :=
  if !isSuccessCode code then SubmitOutcome.httpError code
  else if containsSub content ("Problem not found") then
    SubmitOutcome.problemNotFound problemName
  else SubmitOutcome.ok (extractId content)

/-- Model of the caller submit (lines 54-57 and the error paths of
submit_problem): outcomes become messages, and a missing id aborts with
its own message before any polling. -/
def submitAndGetId (problemName : String) (code : Nat) (content : String) :
    Except String String :=
  match submit_problem problemName code content with
  | SubmitOutcome.httpError c =>
    Except.error (("failed to submit to kattis (http status code ") ++ toString c ++ (")"))
  | SubmitOutcome.problemNotFound n =>
    Except.error (("the problem \"") ++ n ++ ("\" does not exist"))
  | SubmitOutcome.ok none => Except.error ("something went wrong during submission")
  | SubmitOutcome.ok (some id) => Except.ok id

/-- The fetched submission page as the source reads it: either a non-2xx
status, or a parsed page holding the text of the first td.status element
(none when absent) and the .testcases > span elements. -/
inductive FetchResponse where
  | httpError (code : Nat)
  | page (statusEl : Option String) (tests : List TestEl)
deriving DecidableEq

/-- Input of one poll tick: whether the login succeeds and what the
subsequent fetch returns. -/
structure TickInput where
  loginOk : Bool
  response : FetchResponse
deriving DecidableEq

/-- Observable actions of one tick, in the order they happen. -/
inductive Event where
  | login (creds : Credentials)
  | fetch
  | waitingMsg (statusText : String)
  | progressMsg (resolved total : Nat)
  | sleep
deriving DecidableEq

/-- Control outcome of one iteration of the loop (lines 130-225). -/
inductive TickOut where
  | abortAuth
  | abortFetch (code : Nat)
  | abortParse
  | compileError
  | again (fail : Option TestCase)
  | done (fail : Option TestCase) (numPassed numFailed total : Nat)
deriving DecidableEq

/-- Lines 169-224: scan the test elements, print the progress line, then
break when the register is set or all tests are resolved, else sleep. -/
def testBranch (creds : Credentials) (fail : Option TestCase) (tests : List TestEl) :
    List Event × TickOut :=
  let st := scanTests fail tests
  if st.fail.isSome then
    ([Event.login creds, Event.fetch,
      Event.progressMsg (st.numPassed + st.numFailed) st.tests.length],
     TickOut.done st.fail st.numPassed st.numFailed st.tests.length)
  else if st.numPassed + st.numFailed == st.tests.length then
    ([Event.login creds, Event.fetch,
      Event.progressMsg (st.numPassed + st.numFailed) st.tests.length],
     TickOut.done st.fail st.numPassed st.numFailed st.tests.length)
  else
    ([Event.login creds, Event.fetch,
      Event.progressMsg (st.numPassed + st.numFailed) st.tests.length, Event.sleep],
     TickOut.again st.fail)

/-- One iteration of the loop in show_submission_status: log in, fetch,
extract the status text, classify it, and when it is neither a compile
error nor a waiting state, fall through to the test branch. -/
def pollTick (creds : Credentials) (fail : Option TestCase) (t : TickInput) :
    List Event × TickOut :=
  if t.loginOk then
    match t.response with
    | FetchResponse.httpError code =>
      ([Event.login creds, Event.fetch], TickOut.abortFetch code)
    | FetchResponse.page none _ =>
      ([Event.login creds, Event.fetch], TickOut.abortParse)
    | FetchResponse.page (some stText) tests =>
      let status := toLowerStr stText
      if containsSub status ("compile error") then
        ([Event.login creds, Event.fetch], TickOut.compileError)
      else if containsSub status ("new") || containsSub status ("compiling") then
        ([Event.login creds, Event.fetch, Event.waitingMsg status, Event.sleep],
         TickOut.again fail)
      else
        testBranch creds fail tests
  else
    ([Event.login creds], TickOut.abortAuth)

/-- Final outcome of a poll run over a finite trace of tick inputs. -/
inductive PollResult where
  | authError
  | fetchError (code : Nat)
  | parseError
  | compileErr
  | finished (fail : Option TestCase) (numPassed numFailed total : Nat)
  | outOfInput (fail : Option TestCase)
deriving DecidableEq

/-- The loop of show_submission_status, driven by a finite trace of tick
inputs; outOfInput reports the register when the trace ends before the
loop does. -/
def runPoll (creds : Credentials) : Option TestCase → List TickInput → List Event × PollResult
  | fail, [] => ([], PollResult.outOfInput fail)
  | fail, t :: rest =>
    match pollTick creds fail t with
    | (evs, TickOut.abortAuth) => (evs, PollResult.authError)
    | (evs, TickOut.abortFetch c) => (evs, PollResult.fetchError c)
    | (evs, TickOut.abortParse) => (evs, PollResult.parseError)
    | (evs, TickOut.compileError) => (evs, PollResult.compileErr)
    | (evs, TickOut.done f p q tot) => (evs, PollResult.finished f p q tot)
    | (evs, TickOut.again f) =>
      let r := runPoll creds f rest
      (evs ++ r.1, r.2)

/-- Line 227: the verdict word of the final report. -/
def resultStr (fail : Option TestCase) : String :=
  match fail with
  | some _ => ("failed")
  | none => ("ok")

/-- Lines 54-63: the poll loop runs only after an id was extracted; any
submit error propagates and no polling happens. -/
def submitThenPoll (creds : Credentials) (problemName : String) (code : Nat)
    (content : String) (ticks : List TickInput) :
    Except String (List Event × PollResult) :=
  match submitAndGetId problemName code content with
  | Except.error e => Except.error e
  | Except.ok _ => Except.ok (runPoll creds none ticks)

/-- The failure register a poll outcome ends with is still the recorded
one. -/
def keepsFail (f : TestCase) : PollResult → Prop
  | PollResult.finished g _ _ _ => g = some f
  | PollResult.outOfInput g => g = some f
  | _ => True

/-- Register preservation at the level of a single tick outcome. -/
def tickKeepsFail (f : TestCase) : TickOut → Prop
  | TickOut.again g => g = some f
  | TickOut.done g _ _ _ => g = some f
  | _ => True

theorem stepTest_fail_some (st : ScanState) (el : TestEl) (f : TestCase)
    (h : st.fail = some f) : (stepTest st el).fail = some f := by
  by_cases h1 : hasClass el ("accepted") = true
  · simp [stepTest, h1, h]
  · by_cases h2 : hasClass el ("rejected") = true <;> simp [stepTest, h1, h2, h]

theorem foldl_fail_some (els : List TestEl) : ∀ (st : ScanState) (f : TestCase),
    st.fail = some f → (els.foldl stepTest st).fail = some f := by
  induction els with
  | nil => intro st f h; simpa using h
  | cons el els ih =>
    intro st f h
    rw [List.foldl_cons]
    exact ih _ f (stepTest_fail_some st el f h)

theorem foldl_fail_none (els : List TestEl) : ∀ st : ScanState, st.fail = none →
    (els.foldl stepTest st).fail = firstRejected els := by
  induction els with
  | nil => intro st h; simpa [firstRejected] using h
  | cons el els ih =>
    intro st h
    rw [List.foldl_cons]
    by_cases h1 : hasClass el ("accepted") = true
    · rw [ih _ (by simp [stepTest, h1, h])]
      simp [firstRejected, h1]
    · by_cases h2 : hasClass el ("rejected") = true
      · have hstep : (stepTest st el).fail
            = some (TestCase.Rejected (extractReason el.title)) := by
          simp [stepTest, h1, h2, h]
        rw [foldl_fail_some els _ _ hstep]
        simp [firstRejected, h1, h2]
      · rw [ih _ (by simp [stepTest, h1, h2, h])]
        simp [firstRejected, h1, h2]

theorem stepTest_numPassed (st : ScanState) (el : TestEl) :
    (stepTest st el).numPassed
      = st.numPassed + (if hasClass el ("accepted") then 1 else 0) := by
  by_cases h1 : hasClass el ("accepted") = true
  · simp [stepTest, h1]
  · by_cases h2 : hasClass el ("rejected") = true <;> simp [stepTest, h1, h2]

theorem stepTest_numFailed (st : ScanState) (el : TestEl) :
    (stepTest st el).numFailed
      = st.numFailed
        + (if (!hasClass el ("accepted") && hasClass el ("rejected")) then 1 else 0) := by
  by_cases h1 : hasClass el ("accepted") = true
  · simp [stepTest, h1]
  · by_cases h2 : hasClass el ("rejected") = true <;> simp [stepTest, h1, h2]

theorem stepTest_len (st : ScanState) (el : TestEl) :
    (stepTest st el).tests.length = st.tests.length + 1 := by
  by_cases h1 : hasClass el ("accepted") = true
  · simp [stepTest, h1]
  · by_cases h2 : hasClass el ("rejected") = true <;> simp [stepTest, h1, h2]

theorem foldl_numPassed (els : List TestEl) : ∀ st : ScanState,
    (els.foldl stepTest st).numPassed
      = st.numPassed + els.countP (fun el => hasClass el ("accepted")) := by
  induction els with
  | nil => intro st; simp
  | cons el els ih =>
    intro st
    rw [List.foldl_cons, ih, stepTest_numPassed]
    by_cases h1 : hasClass el ("accepted") = true <;> simp [List.countP_cons, h1] <;> omega

theorem foldl_numFailed (els : List TestEl) : ∀ st : ScanState,
    (els.foldl stepTest st).numFailed
      = st.numFailed
        + els.countP (fun el => !hasClass el ("accepted") && hasClass el ("rejected")) := by
  induction els with
  | nil => intro st; simp
  | cons el els ih =>
    intro st
    rw [List.foldl_cons, ih, stepTest_numFailed]
    by_cases hq : (!hasClass el ("accepted") && hasClass el ("rejected")) = true <;>
      simp [List.countP_cons, hq] <;> omega

theorem foldl_len (els : List TestEl) : ∀ st : ScanState,
    (els.foldl stepTest st).tests.length = st.tests.length + els.length := by
  induction els with
  | nil => intro st; simp
  | cons el els ih =>
    intro st
    rw [List.foldl_cons, ih, stepTest_len, List.length_cons]
    omega

theorem specTrailingRun_eq (cs : List Char) :
    specTrailingRun cs = (cs.reverse.takeWhile isWordOrSpace).reverse := by
  induction cs using List.reverseRecOn with
  | nil => rfl
  | append_singleton cs c ih =>
    by_cases h : isWordOrSpace c = true <;>
      simp [specTrailingRun, List.foldl_append, h, ih, List.takeWhile_cons] <;>
      simpa [specTrailingRun] using ih

theorem scanTests_fail_some (f : TestCase) (els : List TestEl) :
    (scanTests (some f) els).fail = some f :=
  foldl_fail_some els (ScanState.mk [] 0 0 (some f)) f rfl

theorem testBranch_head (creds : Credentials) (fail : Option TestCase) (tests : List TestEl) :
    (testBranch creds fail tests).1.head? = some (Event.login creds) := by
  simp only [testBranch]
  split
  · rfl
  · split
    · rfl
    · rfl

theorem pollTick_head (creds : Credentials) (fail : Option TestCase) (t : TickInput) :
    (pollTick creds fail t).1.head? = some (Event.login creds) := by
  obtain ⟨lo, resp⟩ := t
  cases lo
  · rfl
  · cases resp with
    | httpError c => rfl
    | page stEl tests =>
      cases stEl with
      | none => rfl
      | some stText =>
        simp only [pollTick]
        split
        · split
          · rfl
          · split
            · rfl
            · exact testBranch_head creds fail tests
        · rfl

theorem pollTick_noLogin (creds : Credentials) (fail : Option TestCase) (t : TickInput)
    (h : t.loginOk = false) :
    pollTick creds fail t = ([Event.login creds], TickOut.abortAuth) := by
  simp [pollTick, h]

theorem pollTick_keeps (creds : Credentials) (f : TestCase) (t : TickInput) :
    tickKeepsFail f (pollTick creds (some f) t).2 := by
  obtain ⟨lo, resp⟩ := t
  cases lo
  · simp [pollTick, tickKeepsFail]
  · cases resp with
    | httpError c => simp [pollTick, tickKeepsFail]
    | page stEl tests =>
      cases stEl with
      | none => simp [pollTick, tickKeepsFail]
      | some stText =>
        simp only [pollTick]
        split
        · split
          · simp [tickKeepsFail]
          · split
            · simp [tickKeepsFail]
            · have hf := scanTests_fail_some f tests
              simp only [testBranch]
              split
              · simpa [tickKeepsFail] using hf
              · split
                · simpa [tickKeepsFail] using hf
                · simpa [tickKeepsFail] using hf
        · simp [tickKeepsFail]

theorem runPoll_keeps (creds : Credentials) (f : TestCase) :
    ∀ ticks : List TickInput, keepsFail f (runPoll creds (some f) ticks).2 := by
  intro ticks
  induction ticks with
  | nil => simp [runPoll, keepsFail]
  | cons t rest ih =>
    have hk := pollTick_keeps creds f t
    rcases hpair : pollTick creds (some f) t with ⟨evs, out⟩
    rw [hpair] at hk
    cases out with
    | abortAuth => simp [runPoll, hpair, keepsFail]
    | abortFetch c => simp [runPoll, hpair, keepsFail]
    | abortParse => simp [runPoll, hpair, keepsFail]
    | compileError => simp [runPoll, hpair, keepsFail]
    | again g =>
      simp only [tickKeepsFail] at hk
      subst hk
      simp only [runPoll, hpair]
      exact ih
    | done g p q tot =>
      simp only [tickKeepsFail] at hk
      simp [runPoll, hpair, keepsFail, hk]

theorem findId_eq_none (cs : List Char) (h : subSearch cs (("ID: ").toList) = false) :
    findId cs = none := by
  induction cs with
  | nil => rfl
  | cons c rest ih =>
    simp only [subSearch, Bool.or_eq_false_iff] at h
    obtain ⟨h1, h2⟩ := h
    simp only [findId, idAt, h1]
    exact ih h2

/-- C1: the first-failure register is monotonic. Starting empty, the
register ends holding the first element classified Rejected in sequence
order with its parsed reason; once it holds some failure, later rejected
elements of the same document never overwrite it, and no subsequent poll
iteration changes what the run finally reports. -/
theorem C1_first_failure_register_monotonic :
    (∀ els : List TestEl, (scanTests none els).fail = firstRejected els) ∧
    (∀ (f : TestCase) (els : List TestEl), (scanTests (some f) els).fail = some f) ∧
    (∀ (creds : Credentials) (f : TestCase) (ticks : List TickInput),
      keepsFail f (runPoll creds (some f) ticks).2) := by
  refine ⟨?_, ?_, ?_⟩
  · intro els
    exact foldl_fail_none els (ScanState.mk [] 0 0 none) rfl
  · intro f els
    exact scanTests_fail_some f els
  · intro creds f ticks
    exact runPoll_keeps creds f ticks

/-- C2: on every poll tick that reaches test-outcome parsing, the loop
stops with the terminal snapshot exactly when the register is set after
the scan or passed plus failed equals the total, and otherwise the tick
ends in a sleep and the loop re-iterates. -/
theorem C2_stop_condition (creds : Credentials) (fail : Option TestCase)
    (stText : String) (tests : List TestEl) (st : ScanState)
    (hst : st = scanTests fail tests)
    (h1 : containsSub (toLowerStr stText) ("compile error") = false)
    (h2 : containsSub (toLowerStr stText) ("new") = false)
    (h3 : containsSub (toLowerStr stText) ("compiling") = false) :
    ((pollTick creds fail (TickInput.mk true (FetchResponse.page (some stText) tests))).2
        = TickOut.done st.fail st.numPassed st.numFailed st.tests.length
      ↔ (st.fail.isSome = true ∨ st.numPassed + st.numFailed = st.tests.length)) ∧
    ((st.fail.isSome = false ∧ st.numPassed + st.numFailed ≠ st.tests.length) →
      pollTick creds fail (TickInput.mk true (FetchResponse.page (some stText) tests))
        = ([Event.login creds, Event.fetch,
            Event.progressMsg (st.numPassed + st.numFailed) st.tests.length, Event.sleep],
           TickOut.again st.fail)) := by
  subst hst
  have hpoll : pollTick creds fail (TickInput.mk true (FetchResponse.page (some stText) tests))
      = testBranch creds fail tests := by
    simp [pollTick, h1, h2, h3]
  rw [hpoll]
  simp only [testBranch]
  by_cases ho : (scanTests fail tests).fail.isSome = true
  · rw [if_pos ho]
    refine ⟨iff_of_true rfl (Or.inl ho), ?_⟩
    rintro ⟨ha, -⟩
    rw [ha] at ho
    exact Bool.noConfusion ho
  · rw [if_neg ho]
    by_cases hb : ((scanTests fail tests).numPassed + (scanTests fail tests).numFailed
        == (scanTests fail tests).tests.length) = true
    · rw [if_pos hb]
      refine ⟨iff_of_true rfl (Or.inr (beq_iff_eq.mp hb)), ?_⟩
      rintro ⟨-, hne⟩
      exact absurd (beq_iff_eq.mp hb) hne
    · rw [if_neg hb]
      refine ⟨iff_of_false (by simp) ?_, fun _ => rfl⟩
      rintro (h | h)
      · exact ho h
      · exact hb (beq_iff_eq.mpr h)

/-- C2 witness: one accepted test out of one resolves everything, so the
tick stops with the terminal snapshot. -/
theorem C2_witness :
    (pollTick (Credentials.mk ("u") ("t")) none
        (TickInput.mk true
          (FetchResponse.page (some ("running")) [TestEl.mk [("accepted")] none]))).2
      = TickOut.done none 1 0 1 := by
  have h := C2_stop_condition (Credentials.mk ("u") ("t")) none ("running")
    [TestEl.mk [("accepted")] none]
    (scanTests none [TestEl.mk [("accepted")] none]) rfl
    (by decide) (by decide) (by decide)
  exact (h.1.mpr (Or.inr (by decide))).trans (by decide)

/-- C3: a fetched document whose status text contains compile error,
matched case-insensitively, makes the poller terminate at once with the
compile-error outcome, whatever the per-test elements hold. -/
theorem C3_compile_error_terminal (creds : Credentials) (fail : Option TestCase)
    (stText : String) (tests : List TestEl)
    (h : containsSub (toLowerStr stText) ("compile error") = true) :
    pollTick creds fail (TickInput.mk true (FetchResponse.page (some stText) tests))
      = ([Event.login creds, Event.fetch], TickOut.compileError) ∧
    (∀ rest : List TickInput,
      runPoll creds fail (TickInput.mk true (FetchResponse.page (some stText) tests) :: rest)
        = ([Event.login creds, Event.fetch], PollResult.compileErr)) := by
  have hp : pollTick creds fail (TickInput.mk true (FetchResponse.page (some stText) tests))
      = ([Event.login creds, Event.fetch], TickOut.compileError) := by
    simp [pollTick, h]
  exact ⟨hp, fun rest => by simp [runPoll, hp]⟩

/-- C3 witness: a mixed-case compile error status on a document that
even carries a rejected test element stops polling at once and ignores
the element. -/
theorem C3_witness :
    pollTick (Credentials.mk ("u") ("t")) none
        (TickInput.mk true
          (FetchResponse.page (some ("Compile Error")) [TestEl.mk [("rejected")] none]))
      = ([Event.login (Credentials.mk ("u") ("t")), Event.fetch], TickOut.compileError) :=
  (C3_compile_error_terminal (Credentials.mk ("u") ("t")) none ("Compile Error")
    [TestEl.mk [("rejected")] none] (by decide)).1

/-- C4 as frozen is false: an element carrying both the accepted and the
rejected class is counted as passed, not failed, so the failed counter
is not the number of elements carrying class rejected. -/
theorem C4_counterexample :
    (scanTests none [TestEl.mk [("accepted"), ("rejected")] none]).numFailed = 0 ∧
    ([TestEl.mk [("accepted"), ("rejected")] none].countP
        (fun el => hasClass el ("rejected"))) = 1 := by
  refine ⟨by decide, by decide⟩

/-- C4 amended: on every tick that parses test outcomes, passed counts
the elements carrying class accepted, failed counts the elements
carrying class rejected and not class accepted (both case-insensitive),
and total is the length of the element sequence in document order. -/
theorem C4_counts (fail : Option TestCase) (els : List TestEl) :
    (scanTests fail els).numPassed = els.countP (fun el => hasClass el ("accepted")) ∧
    (scanTests fail els).numFailed
      = els.countP (fun el => !hasClass el ("accepted") && hasClass el ("rejected")) ∧
    (scanTests fail els).tests.length = els.length := by
  refine ⟨?_, ?_, ?_⟩
  · simpa using foldl_numPassed els (ScanState.mk [] 0 0 fail)
  · simpa using foldl_numFailed els (ScanState.mk [] 0 0 fail)
  · simpa using foldl_len els (ScanState.mk [] 0 0 fail)

/-- C5: the reason recorded for a rejected element is the trailing
contiguous run of word characters and spaces of its title attribute,
trimmed and lower-cased, defaulting to unknown when the attribute is
absent or the pattern does not match: the source extractor agrees with
the spec-modelled one everywhere, and a rejected element is pushed with
exactly that reason. -/
theorem C5_rejected_reason :
    (∀ title : Option String, extractReason title = specReason title) ∧
    (∀ (st : ScanState) (el : TestEl),
      hasClass el ("accepted") = false → hasClass el ("rejected") = true →
      (stepTest st el).tests = st.tests ++ [TestCase.Rejected (specReason el.title)]) := by
  have key : ∀ title : Option String, extractReason title = specReason title := by
    intro title
    cases title with
    | none => rfl
    | some t => simp only [extractReason, specReason, trailingRun, specTrailingRun_eq]
  refine ⟨key, ?_⟩
  intro st el h1 h2
  rw [← key]
  simp [stepTest, h1, h2]

/-- C5 witness: a rejected element whose tooltip ends in a colon-then
text run yields the trimmed lower-cased trailing run. -/
theorem C5_witness :
    (stepTest (ScanState.mk [] 0 0 none)
        (TestEl.mk [("rejected")] (some ("2: Wrong Answer")))).tests
      = [TestCase.Rejected ("wrong answer")] := by
  have h := C5_rejected_reason.2 (ScanState.mk [] 0 0 none)
    (TestEl.mk [("rejected")] (some ("2: Wrong Answer"))) (by decide) (by decide)
  rw [h]
  decide

/-- C6: every tick performs the login first, so a fetch never happens
without a preceding login in the same tick, and a failed login aborts
the whole poll with the authentication error. -/
theorem C6_login_each_tick (creds : Credentials) (fail : Option TestCase) (t : TickInput) :
    (pollTick creds fail t).1.head? = some (Event.login creds) ∧
    (t.loginOk = false → pollTick creds fail t = ([Event.login creds], TickOut.abortAuth)) ∧
    (∀ rest : List TickInput, t.loginOk = false →
      runPoll creds fail (t :: rest) = ([Event.login creds], PollResult.authError)) := by
  refine ⟨pollTick_head creds fail t, pollTick_noLogin creds fail t, ?_⟩
  intro rest h
  simp [runPoll, pollTick_noLogin creds fail t h]

/-- C6 witness: a tick whose login fails ends the whole run with the
authentication error and no fetch. -/
theorem C6_witness :
    runPoll (Credentials.mk ("u") ("t")) none [TickInput.mk false (FetchResponse.httpError 500)]
      = ([Event.login (Credentials.mk ("u") ("t"))], PollResult.authError) :=
  (C6_login_each_tick (Credentials.mk ("u") ("t")) none
    (TickInput.mk false (FetchResponse.httpError 500))).2.2 [] rfl

/-- C7: the submission id is the first digit run after the literal ID
marker: the example body yields 482913, a body without the marker yields
no id, and a body where the pattern never matches makes submit fail with
the id-not-found message before any polling happens. -/
theorem C7_id_extraction :
    extractId ("...ID: 482913...") = some ("482913") ∧
    (∀ content : String, containsSub content ("ID: ") = false → extractId content = none) ∧
    (∀ (creds : Credentials) (problemName : String) (code : Nat) (content : String)
        (ticks : List TickInput),
      isSuccessCode code = true →
      containsSub content ("Problem not found") = false →
      extractId content = none →
      submitThenPoll creds problemName code content ticks
        = Except.error ("something went wrong during submission")) := by
  refine ⟨by decide, ?_, ?_⟩
  · intro content h
    exact findId_eq_none content.toList h
  · intro creds problemName code content ticks hs hp hid
    simp [submitThenPoll, submitAndGetId, submit_problem, hs, hp, hid]

/-- C7 witness: a successful response body with no id pattern aborts
before polling with the id-not-found message. -/
theorem C7_witness :
    submitThenPoll (Credentials.mk ("u") ("t")) ("aplusb") 200 ("no id here") []
      = Except.error ("something went wrong during submission") :=
  C7_id_extraction.2.2 (Credentials.mk ("u") ("t")) ("aplusb") 200 ("no id here") []
    (by decide) (by decide) (by decide)

/-- C8: a successful response body containing the problem-not-found
marker makes submit fail with the problem-not-found outcome naming the
problem, for every body, so the check precedes id extraction. -/
theorem C8_problem_not_found (problemName : String) (code : Nat) (content : String)
    (hs : isSuccessCode code = true)
    (h : containsSub content ("Problem not found") = true) :
    submit_problem problemName code content = SubmitOutcome.problemNotFound problemName ∧
    submitAndGetId problemName code content
      = Except.error (("the problem \"") ++ problemName ++ ("\" does not exist")) := by
  have h1 : submit_problem problemName code content
      = SubmitOutcome.problemNotFound problemName := by
    simp [submit_problem, hs, h]
  exact ⟨h1, by simp [submitAndGetId, h1]⟩

/-- C8 witness: the marker wins even when the body also carries an
extractable id pattern. -/
theorem C8_witness :
    submit_problem ("aplusb") 200 ("Problem not found ID: 123")
      = SubmitOutcome.problemNotFound ("aplusb") :=
  (C8_problem_not_found ("aplusb") 200 ("Problem not found ID: 123")
    (by decide) (by decide)).1

/-- C9 as frozen is false: the progress event of a waiting tick carries
the lower-cased status text, not the raw one; for raw status New the
emitted text is new. -/
theorem C9_counterexample :
    pollTick (Credentials.mk ("u") ("t")) none
        (TickInput.mk true (FetchResponse.page (some ("New")) []))
      = ([Event.login (Credentials.mk ("u") ("t")), Event.fetch,
          Event.waitingMsg ("new"), Event.sleep], TickOut.again none) ∧
    Event.waitingMsg ("New")
        ∉ (pollTick (Credentials.mk ("u") ("t")) none
            (TickInput.mk true (FetchResponse.page (some ("New")) []))).1 := by
  refine ⟨by decide, by decide⟩

/-- C9 amended: a fetched document whose status text contains new or
compiling (and not compile error) makes the tick emit a progress event
carrying the lower-cased status text, sleep, and re-iterate without
parsing any per-test elements. -/
theorem C9_waiting (creds : Credentials) (fail : Option TestCase)
    (stText : String) (tests : List TestEl)
    (h1 : containsSub (toLowerStr stText) ("compile error") = false)
    (h2 : containsSub (toLowerStr stText) ("new") = true
        ∨ containsSub (toLowerStr stText) ("compiling") = true) :
    pollTick creds fail (TickInput.mk true (FetchResponse.page (some stText) tests))
      = ([Event.login creds, Event.fetch, Event.waitingMsg (toLowerStr stText), Event.sleep],
         TickOut.again fail) := by
  rcases h2 with h2 | h2 <;> simp [pollTick, h1, h2]

/-- C9 witness: a compiling status tick waits and leaves even a rejected
test element unparsed. -/
theorem C9_witness :
    pollTick (Credentials.mk ("u") ("t")) none
        (TickInput.mk true
          (FetchResponse.page (some ("Compiling")) [TestEl.mk [("rejected")] none]))
      = ([Event.login (Credentials.mk ("u") ("t")), Event.fetch,
          Event.waitingMsg ("compiling"), Event.sleep], TickOut.again none) := by
  have h := C9_waiting (Credentials.mk ("u") ("t")) none ("Compiling")
    [TestEl.mk [("rejected")] none] (by decide) (Or.inr (by decide))
  exact h.trans (by decide)

/-- C10: a document whose status is past the queue and compile stages
but whose test-case region is empty ends the poll on that very tick with
zero passed, zero failed, zero total, an empty register, and the final
report says ok. -/
theorem C10_zero_tests (creds : Credentials) (stText : String) (rest : List TickInput)
    (h1 : containsSub (toLowerStr stText) ("compile error") = false)
    (h2 : containsSub (toLowerStr stText) ("new") = false)
    (h3 : containsSub (toLowerStr stText) ("compiling") = false) :
    runPoll creds none (TickInput.mk true (FetchResponse.page (some stText) []) :: rest)
      = ([Event.login creds, Event.fetch, Event.progressMsg 0 0],
         PollResult.finished none 0 0 0) ∧
    resultStr none = ("ok") := by
  have ht : testBranch creds none ([] : List TestEl)
      = ([Event.login creds, Event.fetch, Event.progressMsg 0 0], TickOut.done none 0 0 0) := rfl
  have hp : pollTick creds none (TickInput.mk true (FetchResponse.page (some stText) []))
      = ([Event.login creds, Event.fetch, Event.progressMsg 0 0], TickOut.done none 0 0 0) := by
    simp [pollTick, h1, h2, h3, ht]
  exact ⟨by simp [runPoll, hp], rfl⟩

/-- C10 witness: a running status with an empty test region ends the run
at once with the all-zero snapshot. -/
theorem C10_witness :
    runPoll (Credentials.mk ("u") ("t")) none
        [TickInput.mk true (FetchResponse.page (some ("running")) [])]
      = ([Event.login (Credentials.mk ("u") ("t")), Event.fetch, Event.progressMsg 0 0],
         PollResult.finished none 0 0 0) :=
  (C10_zero_tests (Credentials.mk ("u") ("t")) ("running") []
    (by decide) (by decide) (by decide)).1

end KittySubmit
